import Mathlib

/-!
Formalisation of the Sprite One serial protocol implementation
(`host/python/sprite_one.py`, `tools/mock_device.py`): frame encoding,
CRC32 integrity engine, the mock device's command handlers (upload
session, telemetry primitives), and the serial server's buffer handling.
Bytes are modelled as `Nat`; byte strings as `List Nat`.
-/

/-- Frame marker byte (`HEADER = 0xAA` / `SPRITE_HEADER = 0xAA`). -/
def HEADER : Nat := 0xAA

/-- Response status byte values (`RESP_OK..RESP_BUSY` in `sprite_one.py`;
`mock_device.py` defines only the first three). -/
inductive RespStatus where
  | ok
  | error
  | notFound
  | busy
deriving DecidableEq, Repr, BEq

/-- Wire encoding of a status (`0=OK, 1=ERROR, 2=NOT_FOUND, 3=BUSY`). -/
def RespStatus.toByte : RespStatus → Nat
  | .ok => 0
  | .error => 1
  | .notFound => 2
  | .busy => 3

/-! ## CRC32 integrity engine (zlib semantics)

`zlib.crc32(data, start)`: reflected CRC-32, polynomial `0xEDB88320`,
state initialised to `start XOR 0xFFFFFFFF`, final value complemented. -/

/-- The reflected CRC-32 polynomial. -/
def CRC32_POLY : Nat := 0xEDB88320

/-- One bit step of the reflected CRC-32: shift right, conditionally
fold in the polynomial. -/
def crc32UpdateBit (c : Nat) : Nat :=
  if c % 2 = 1 then (c >>> 1) ^^^ CRC32_POLY else c >>> 1

/-- Absorb one byte into the raw (un-complemented) CRC state. -/
def crc32UpdateByte (c b : Nat) : Nat := crc32UpdateBit^[8] (c ^^^ b)

/-- Absorb a byte string into the raw CRC state. -/
def crc32Raw (data : List Nat) (c : Nat) : Nat := data.foldl crc32UpdateByte c

/-- `zlib.crc32(data, start)`: complement in, process, complement out. -/
def zlibCrc32 (data : List Nat) (start : Nat) : Nat :=
  crc32Raw data (start ^^^ 0xFFFFFFFF) ^^^ 0xFFFFFFFF

/-- `calculate_crc32` (mock_device.py lines 64-65):
`zlib.crc32(data) & 0xFFFFFFFF`, i.e. one-call CRC32 with start 0. -/
def calculate_crc32 (data : List Nat) : Nat :=
  zlibCrc32 data 0 &&& 0xFFFFFFFF

/-- Little-endian 4-byte encoding, as produced by `struct.pack("<I", n)`
for `n < 2^32`. -/
def le32 (n : Nat) : List Nat :=
  [n % 256, (n >>> 8) % 256, (n >>> 16) % 256, (n >>> 24) % 256]

/-- `struct.unpack("<I", data[:4])[0]` on a byte list (reads the first
four bytes, missing bytes read as 0). -/
def decodeLE32 (l : List Nat) : Nat :=
  l.getD 0 0 + 256 * l.getD 1 0 + 65536 * l.getD 2 0 + 16777216 * l.getD 3 0

/-! ## Upload session state (`MockDevice` fields, mock_device.py lines 89-92)

`upload_buffer`, `upload_name`, `is_uploading`, `upload_crc`. -/

structure UploadState where
  buffer : List Nat
  name : List Nat
  active : Bool
  crc : Nat
deriving DecidableEq, Repr

/-- `payload.decode("ascii", errors="ignore")`: drop every byte ≥ 128. -/
def decodeAsciiIgnore (payload : List Nat) : List Nat :=
  payload.filter (fun b => b < 128)

/-- `s.strip("\x00")`: remove leading and trailing NUL characters. -/
def stripNulls (l : List Nat) : List Nat :=
  ((l.dropWhile (fun b => b = 0)).reverse.dropWhile (fun b => b = 0)).reverse

/-- The destination name computed by `_cmd_upload_start` from its payload. -/
def uploadStartName (payload : List Nat) : List Nat :=
  stripNulls (decodeAsciiIgnore payload)

/-- `MockDevice._cmd_upload_start` (mock_device.py lines 288-300): decodes
the name, empties the accumulation buffer, marks the session active and
sets `upload_crc = 0`, returning OK.  The code performs no `is_uploading`
check, so the previous state is overwritten unconditionally (the `except`
branch is unreachable: `decode(errors="ignore")` and `strip` never raise). -/
def cmd_upload_start (_st : UploadState) (payload : List Nat) :
    UploadState × RespStatus :=
  (⟨[], uploadStartName payload, true, 0⟩, .ok)

/-- `MockDevice._cmd_upload_chunk` (lines 302-308): ERROR when no session
is active; otherwise append the payload and fold it into the running CRC
via `zlib.crc32(payload, self.upload_crc)`. -/
def cmd_upload_chunk (st : UploadState) (payload : List Nat) :
    UploadState × RespStatus :=
  if st.active then
    ({ st with buffer := st.buffer ++ payload,
               crc := zlibCrc32 payload st.crc }, .ok)
  else (st, .error)

/-- `MockDevice._cmd_upload_end` (lines 310-332): ERROR when no session is
active; otherwise clear `is_uploading`.  Lines 317-323 compare
`self.upload_crc & 0xFFFFFFFF` with the little-endian expected CRC from
the payload, but only print on mismatch — the `RESP_ERROR` return is
commented out — so the handler returns OK either way.  (Registration of
the uploaded model in `self.models` is the out-of-scope storage
collaborator and is not part of the session state.) -/
def cmd_upload_end (st : UploadState) (_payload : List Nat) :
    UploadState × RespStatus :=
  if st.active then ({ st with active := false }, .ok)
  else (st, .error)

/-! ## Telemetry primitives -/

/-- A little-endian float32 bit pattern decodes to a non-finite value
(NaN or ±infinity) exactly when its exponent field (bits 23-30) is
all-ones; `math.isfinite` on the decoded value is this test. -/
def isFiniteBits (bits : Nat) : Bool :=
  ((bits >>> 23) &&& 0xFF) != 255

/-- `MockDevice._cmd_buffer_write` (lines 357-367), with the circular
buffer holding the float32 bit patterns that were decoded from the
payload: ERROR on a payload shorter than 4 bytes or a non-finite sample;
otherwise append and, when the length exceeds 60, `pop(0)` the oldest. -/
def cmd_buffer_write (buf : List Nat) (payload : List Nat) :
    List Nat × RespStatus :=
  if payload.length < 4 then (buf, .error)
  else
    let sample := decodeLE32 payload
    if isFiniteBits sample then
      let buf' := buf ++ [sample]
      (if 60 < buf'.length then buf'.tail else buf', .ok)
    else (buf, .error)

/-- Arithmetic mean `sum(buf) / len(buf)` over exact rationals. -/
def buffer_mean (buf : List ℚ) : ℚ := buf.sum / buf.length

/-- `MockDevice._cmd_baseline_capture` (lines 376-381), with the samples
and the stored baseline modelled in exact arithmetic: ERROR on an empty
buffer, otherwise store and return the buffer mean. -/
def cmd_baseline_capture (buf : List ℚ) (baseline : Option ℚ) :
    Option ℚ × RespStatus :=
  if buf = [] then (baseline, .error)
  else (some (buffer_mean buf), .ok)

/-- `MockDevice._cmd_get_delta` (lines 388-394): ERROR when the baseline
is unset or the buffer is empty; otherwise return
`abs(live_mean - baseline)`. -/
def cmd_get_delta (buf : List ℚ) (baseline : Option ℚ) :
    RespStatus × Option ℚ :=
  match baseline with
  | none => (.error, none)
  | some b => if buf = [] then (.error, none)
              else (.ok, some |buffer_mean buf - b|)

/-- `MockDevice._cmd_ping_id` (lines 351-355): OK exactly when the payload
is at least 8 bytes long and its first 8 bytes equal the device identity. -/
def cmd_ping_id (deviceId : List Nat) (payload : List Nat) : RespStatus :=
  if 8 ≤ payload.length ∧ payload.take 8 = deviceId then .ok else .error

/-! ## Host frame encoding (`sprite_one.py`) -/

/-- `SpriteOne._checksum` (lines 192-194): `(~sum(data) + 1) & 0xFF`,
the two's complement of the payload byte sum, reduced modulo 256. -/
def hostChecksum (data : List Nat) : Nat :=
  (256 - data.sum % 256) % 256

/-- The request frame built by `SpriteOne._send_command` (lines 151-153):
`bytes([HEADER, cmd, len(payload)]) + payload + bytes([checksum(payload)])`. -/
def send_command_packet (cmd : Nat) (payload : List Nat) : List Nat :=
  [HEADER, cmd, payload.length] ++ payload ++ [hostChecksum payload]

/-- The request frame built by the mock's own test helper `make_packet`
(mock_device.py lines 508-514): marker, opcode, length, payload, then the
4-byte little-endian CRC32 over `OPCODE‖LEN‖PAYLOAD` — the layout spec
§4.1 prescribes for requests. -/
def mock_make_packet (cmd : Nat) (payload : List Nat) : List Nat :=
  [HEADER, cmd, payload.length] ++ payload
    ++ le32 (calculate_crc32 (cmd :: payload.length :: payload))

/-- The validation portion of `MockDevice.process_packet` (lines 142-184):
`true` iff the frame is at least 7 bytes, starts with the marker, carries
a consistent length, and its little-endian CRC32 trailer matches
`calculate_crc32` over `CMD‖LEN‖DATA`.  (On `true` the real method goes
on to dispatch the opcode, lines 186-191; the individual handlers are
modelled separately above.) -/
def process_packet_ok (data : List Nat) : Bool :=
  if data.length < 7 ∨ data.head? ≠ some HEADER then false
  else
    let length := data.getD 2 0
    if data.length < 3 + length + 4 then false
    else
      let crcData := (data.drop 1).take (2 + length)
      let received := decodeLE32 ((data.drop (3 + length)).take 4)
      received == calculate_crc32 crcData

/-! ## Mock serial server receive loop (`run_serial_server`, lines 474-497)

The inner `while` extracts complete `HEADER CMD LEN DATA CRC32` packets
from the front of the buffer; afterwards, if the buffer is non-empty and
does not start with the marker, lines 496-497 clear the whole buffer. -/

/-- Fuel-indexed packet extraction; `extractPackets` supplies fuel equal
to the buffer length, which bounds the iteration count since every
extracted packet consumes at least 7 bytes. -/
def extractGo : Nat → List Nat → List (List Nat) × List Nat
  | 0, buf => ([], buf)
  | fuel + 1, buf =>
      if 3 ≤ buf.length ∧ buf.head? = some HEADER then
        let len := buf.getD 2 0
        let packetLen := 3 + len + 4
        if buf.length < packetLen then ([], buf)
        else
          let r := extractGo fuel (buf.drop packetLen)
          (buf.take packetLen :: r.1, r.2)
      else ([], buf)

/-- The inner `while` loop of `run_serial_server` (lines 482-494):
extract complete marker-aligned packets from the front of the buffer,
returning the packets handed to `process_packet` and the remaining bytes. -/
def extractPackets (buf : List Nat) : List (List Nat) × List Nat :=
  extractGo buf.length buf

/-- One pass of the server's buffer handling after bytes arrive
(lines 482-497): extract packets, then clear the residue wholesale if it
does not begin with the marker byte. -/
def serverStep (buffer : List Nat) : List (List Nat) × List Nat :=
  let r := extractPackets buffer
  if r.2 ≠ [] ∧ r.2.head? ≠ some HEADER then (r.1, []) else r

/-- The response-decoding half of `SpriteOne._send_command`
(lines 158-190) on a byte stream: read 4 header bytes (timeout if fewer
arrive), reject a wrong marker, read `LEN` data bytes and the 4-byte
trailer, and reject a CRC32 mismatch over `CMD‖STATUS‖LEN‖DATA`. -/
def host_read_response (stream : List Nat) :
    Except String (Nat × Nat × List Nat) :=
  if stream.length < 4 then .error "Timeout waiting for response"
  else if stream.head? ≠ some HEADER then .error "Invalid response header"
  else
    let respCmd := stream.getD 1 0
    let respStatus := stream.getD 2 0
    let respLen := stream.getD 3 0
    let rest := stream.drop 4
    if rest.length < respLen then .error "Incomplete response data"
    else
      let respData := rest.take respLen
      if (rest.drop respLen).length < 4 then
        .error "Missing CRC32 trailer in response"
      else
        let expected := decodeLE32 ((rest.drop respLen).take 4)
        let actual := zlibCrc32 (respCmd :: respStatus :: respLen :: respData) 0
          &&& 0xFFFFFFFF
        if actual ≠ expected then .error "CRC mismatch"
        else .ok (respStatus, respCmd, respData)

/-! ## Batch execution (spec §4.2) -/

/-- Modelled from the spec: the batch dispatcher's sub-record parser is
missing from src/ — the device-side dispatcher that executes the batch
opcode is firmware code not included in the sources, and the mock's
`_cmd_batch` (mock_device.py lines 417-418) is a stub that returns OK
without parsing.  Per spec §4.2 the payload is a concatenation of
`[SUBOPCODE(1)][SUBLEN(1)][SUBPAYLOAD(SUBLEN)]` records, parsed left to
right, truncating at a malformed record whose declared length exceeds
the remaining bytes.  Fuel-indexed so it computes by structural
recursion; each step consumes at least two bytes, so fuel equal to the
payload length always suffices. -/
def parseGo : Nat → List Nat → List (Nat × List Nat)
  | 0, _ => []
  | _ + 1, [] => []
  | _ + 1, [_] => []
  | fuel + 1, op :: len :: rest =>
      if len ≤ rest.length then
        (op, rest.take len) :: parseGo fuel (rest.drop len)
      else []

/-- Modelled from the spec: left-to-right sub-record parse of a batch
payload (see `parseGo`). -/
def parseSubRecords (payload : List Nat) : List (Nat × List Nat) :=
  parseGo payload.length payload

/-- Modelled from the spec: invoke the handler table on each parsed
sub-record in order, threading the device state and recording whether
every sub-record reported OK. -/
def batchRun {σ : Type} (handlers : Nat → σ → List Nat → σ × RespStatus)
    (st : σ) (recs : List (Nat × List Nat)) : σ × Bool :=
  recs.foldl (fun acc r =>
    let out := handlers r.1 acc.1 r.2
    (out.1, acc.2 && (out.2 == .ok))) (st, true)

/-- Modelled from the spec: the batch opcode's handler (spec §4.2) —
parse the sub-records, invoke the same handler table on each, and return
one aggregate status for the whole batch: OK when every parsed
sub-record executed without a local error, ERROR otherwise. -/
def batchExec {σ : Type} (handlers : Nat → σ → List Nat → σ × RespStatus)
    (st : σ) (payload : List Nat) : σ × RespStatus :=
  let run := batchRun handlers st (parseSubRecords payload)
  (run.1, if run.2 then .ok else .error)

/-- Wire encoding of a list of batch sub-records. -/
def encodeRecords (rs : List (Nat × List Nat)) : List Nat :=
  (rs.map (fun r => r.1 :: r.2.length :: r.2)).flatten

/-! ## Normalized cross-correlation (`_normalized_cross_corr`, lines 437-454)

Modelled in exact real arithmetic; `(da * db) ** 0.5` is `Real.sqrt`
(its argument is a product of sums of squares, hence non-negative). -/

/-- `sum(l[:n]) / n`: the mean of the first `n` entries
(mock_device.py lines 445-446). -/
noncomputable def sampleMean (n : Nat) (l : List ℝ) : ℝ := (l.take n).sum / n

/-- `sum((l[i] - mean) ** 2 for i in range(n))` (lines 448-449). -/
noncomputable def sqDev (n : Nat) (l : List ℝ) : ℝ :=
  ((l.take n).map (fun x => (x - sampleMean n l) ^ 2)).sum

/-- `sum((a[i] - mean_a) * (b[i] - mean_b) for i in range(n))` (line 447). -/
noncomputable def crossDev (n : Nat) (a b : List ℝ) : ℝ :=
  (List.zipWith (fun x y => (x - sampleMean n a) * (y - sampleMean n b))
    (a.take n) (b.take n)).sum

/-- The Pearson correlation coefficient `r = num / sqrt(da * db)` over the
first `n` samples of each list (lines 447-453). -/
noncomputable def pearsonR (n : Nat) (a b : List ℝ) : ℝ :=
  crossDev n a b / Real.sqrt (sqDev n a * sqDev n b)

/-- `_normalized_cross_corr(a, b)` (lines 437-454): with
`n = min(len(a), len(b))` it returns 0.0 when `n == 0`, 1.0 when
`denom == 0`, and otherwise `max(0.0, min(1.0, (r + 1.0) / 2.0))`. -/
noncomputable def normalized_cross_corr (a b : List ℝ) : ℝ :=
  let n := min a.length b.length
  if n = 0 then 0
  else if Real.sqrt (sqDev n a * sqDev n b) = 0 then 1
  else max 0 (min 1 ((pearsonR n a b + 1) / 2))

/-! # Helper theorems -/

/-! ### CRC32 algebra -/

theorem xor_xor_cancel_right (x f : Nat) : (x ^^^ f) ^^^ f = x := by
  rw [Nat.xor_assoc, Nat.xor_self, Nat.xor_zero]

theorem crc32Raw_append (a b : List Nat) (c : Nat) :
    crc32Raw (a ++ b) c = crc32Raw b (crc32Raw a c) := by
  simp [crc32Raw, List.foldl_append]

/-- Incremental composability of zlib CRC32:
`zlib.crc32(a + b, s) = zlib.crc32(b, zlib.crc32(a, s))`. -/
theorem zlibCrc32_append (a b : List Nat) (s : Nat) :
    zlibCrc32 (a ++ b) s = zlibCrc32 b (zlibCrc32 a s) := by
  simp only [zlibCrc32, crc32Raw_append, xor_xor_cancel_right]

theorem zlibCrc32_nil (s : Nat) : zlibCrc32 [] s = s := by
  simp [zlibCrc32, crc32Raw, xor_xor_cancel_right]

/-! ### CRC32 state stays below 2^32 on byte input -/

theorem crc32UpdateBit_lt (c : Nat) (h : c < 2 ^ 32) :
    crc32UpdateBit c < 2 ^ 32 := by
  unfold crc32UpdateBit
  have hs : c >>> 1 < 2 ^ 32 := by
    rw [Nat.shiftRight_eq_div_pow]
    omega
  split
  · exact Nat.xor_lt_two_pow hs (by norm_num [CRC32_POLY])
  · exact hs

theorem crc32UpdateByte_lt (c b : Nat) (hc : c < 2 ^ 32) (hb : b < 2 ^ 32) :
    crc32UpdateByte c b < 2 ^ 32 := by
  unfold crc32UpdateByte
  have h0 : c ^^^ b < 2 ^ 32 := Nat.xor_lt_two_pow hc hb
  have : ∀ n x, x < 2 ^ 32 → crc32UpdateBit^[n] x < 2 ^ 32 := by
    intro n
    induction n with
    | zero => intro x hx; simpa using hx
    | succ k ih =>
        intro x hx
        rw [Function.iterate_succ_apply]
        exact ih _ (crc32UpdateBit_lt x hx)
  exact this 8 _ h0

theorem crc32Raw_lt (data : List Nat) (c : Nat) (hc : c < 2 ^ 32)
    (hd : ∀ b ∈ data, b < 256) : crc32Raw data c < 2 ^ 32 := by
  induction data generalizing c with
  | nil => simpa [crc32Raw] using hc
  | cons x xs ih =>
      have hx : x < 2 ^ 32 := by
        have := hd x (by simp)
        omega
      have hxs : ∀ b ∈ xs, b < 256 := fun b hb => hd b (by simp [hb])
      simpa [crc32Raw] using ih (crc32UpdateByte c x) (crc32UpdateByte_lt c x hc hx) hxs

theorem zlibCrc32_lt (data : List Nat) (s : Nat) (hs : s < 2 ^ 32)
    (hd : ∀ b ∈ data, b < 256) : zlibCrc32 data s < 2 ^ 32 := by
  unfold zlibCrc32
  exact Nat.xor_lt_two_pow
    (crc32Raw_lt data _ (Nat.xor_lt_two_pow hs (by norm_num)) hd)
    (by norm_num)

theorem parseGo_encode (rs : List (Nat × List Nat)) :
    ∀ (fuel : Nat) (badOp badLen : Nat) (junk : List Nat),
      rs.length + 1 ≤ fuel → junk.length < badLen →
      parseGo fuel (encodeRecords rs ++ badOp :: badLen :: junk) = rs := by
  induction rs with
  | nil =>
      intro fuel badOp badLen junk hfuel hbad
      match fuel, hfuel with
      | f + 1, _ =>
        simp only [encodeRecords, List.map_nil, List.flatten_nil, List.nil_append]
        rw [parseGo]
        simp [Nat.not_le.mpr hbad]
  | cons r rs ih =>
      intro fuel badOp badLen junk hfuel hbad
      match fuel, hfuel with
      | f + 1, hfuel =>
        have hstep :
            encodeRecords (r :: rs) ++ badOp :: badLen :: junk
              = r.1 :: r.2.length ::
                  (r.2 ++ (encodeRecords rs ++ badOp :: badLen :: junk)) := by
          simp [encodeRecords]
        rw [hstep, parseGo]
        have hlen : r.2.length ≤
            (r.2 ++ (encodeRecords rs ++ badOp :: badLen :: junk)).length := by
          simp
        rw [if_pos hlen]
        have htake : (r.2 ++ (encodeRecords rs ++ badOp :: badLen :: junk)).take
            r.2.length = r.2 := by
          simp
        have hdrop : (r.2 ++ (encodeRecords rs ++ badOp :: badLen :: junk)).drop
            r.2.length = encodeRecords rs ++ badOp :: badLen :: junk := by
          simp
        rw [htake, hdrop, ih f badOp badLen junk (by simpa using hfuel) hbad]

theorem decodeLE32_le32 (v : Nat) (h : v < 2 ^ 32) : decodeLE32 (le32 v) = v := by
  simp only [decodeLE32, le32, List.getD_cons_zero, List.getD_cons_succ,
    Nat.shiftRight_eq_div_pow]
  omega

/-- Dropping from an already-dropped prefix commutes with appending. -/
theorem drop_append_drop (l t : List Nat) (j m : Nat) (hj : j ≤ l.length) :
    ((l.drop j) ++ t).drop m = (l ++ t).drop (j + m) := by
  rw [← List.drop_append_of_le_length hj, List.drop_drop, Nat.add_comm]

/-- One successful `_cmd_buffer_write` of an encoded finite sample acts as
append-then-evict: from a buffer of at most 60 samples it yields
`(buf ++ [v]).drop (buf.length + 1 - 60)`. -/
theorem cmd_buffer_write_finite (buf : List Nat) (v : Nat)
    (hb : buf.length ≤ 60) (hfin : isFiniteBits v = true) (hv : v < 2 ^ 32) :
    cmd_buffer_write buf (le32 v)
      = ((buf ++ [v]).drop (buf.length + 1 - 60), .ok) := by
  have hlen : ¬ (le32 v).length < 4 := by simp [le32]
  simp only [cmd_buffer_write, hlen, if_false, decodeLE32_le32 v hv, hfin,
    if_true]
  by_cases h60 : buf.length = 60
  · have : 60 < (buf ++ [v]).length := by simp [h60]
    simp [this, h60, ← List.drop_one]
  · have hlt : buf.length < 60 := by omega
    have : ¬ 60 < (buf ++ [v]).length := by
      simp only [List.length_append, List.length_cons, List.length_nil]
      omega
    simp only [this, if_false]
    have h0 : buf.length + 1 - 60 = 0 := by omega
    simp [h0]

/-- Folding `_cmd_buffer_write` over a list of encoded finite samples
keeps the most recent 60, in insertion order. -/
theorem buffer_write_foldl (vs : List Nat) :
    ∀ (b : List Nat), b.length ≤ 60 →
      (∀ v ∈ vs, isFiniteBits v = true) → (∀ v ∈ vs, v < 2 ^ 32) →
      vs.foldl (fun acc v => (cmd_buffer_write acc (le32 v)).1) b
        = (b ++ vs).drop (b.length + vs.length - 60) := by
  induction vs with
  | nil =>
      intro b hb _ _
      simp only [List.foldl_nil, List.append_nil, List.length_nil, Nat.add_zero]
      have h0 : b.length - 60 = 0 := by omega
      rw [h0, List.drop_zero]
  | cons v vs ih =>
      intro b hb hfin hbound
      have hfv : isFiniteBits v = true := hfin v (by simp)
      have hvv : v < 2 ^ 32 := hbound v (by simp)
      have hstep := cmd_buffer_write_finite b v hb hfv hvv
      simp only [List.foldl_cons, hstep]
      have hlen' : ((b ++ [v]).drop (b.length + 1 - 60)).length ≤ 60 := by
        simp only [List.length_drop, List.length_append, List.length_cons,
          List.length_nil]
        omega
      rw [ih _ hlen' (fun w hw => hfin w (by simp [hw]))
        (fun w hw => hbound w (by simp [hw]))]
      have hj : b.length + 1 - 60 ≤ (b ++ [v]).length := by
        simp only [List.length_append, List.length_cons, List.length_nil]
        omega
      rw [drop_append_drop _ _ _ _ hj]
      have harr : (b ++ [v]) ++ vs = b ++ v :: vs := by simp
      rw [harr]
      congr 1
      simp only [List.length_drop, List.length_append, List.length_cons,
        List.length_nil]
      omega

/-- Folding `_cmd_upload_chunk` over a list of chunks on an active session
appends their concatenation and folds it into the running CRC. -/
theorem upload_chunk_foldl (chunks : List (List Nat)) :
    ∀ (st : UploadState), st.active = true →
      chunks.foldl (fun s c => (cmd_upload_chunk s c).1) st
        = { st with buffer := st.buffer ++ chunks.flatten,
                    crc := zlibCrc32 chunks.flatten st.crc } := by
  induction chunks with
  | nil =>
      intro st h
      simp [zlibCrc32_nil]
  | cons c cs ih =>
      intro st h
      have hstep : (cmd_upload_chunk st c).1
          = { st with buffer := st.buffer ++ c, crc := zlibCrc32 c st.crc } := by
        simp [cmd_upload_chunk, h]
      simp only [List.foldl_cons, hstep]
      rw [ih _ (by simpa using h)]
      simp [List.append_assoc, zlibCrc32_append]

/-- Masking a value below `2^32` with `0xFFFFFFFF` is the identity. -/
theorem and_mask32_eq_self (x : Nat) (h : x < 2 ^ 32) :
    x &&& 0xFFFFFFFF = x := by
  have h1 : (0xFFFFFFFF : Nat) = 2 ^ 32 - 1 := by norm_num
  rw [h1, Nat.and_pow_two_sub_one_eq_mod, Nat.mod_eq_of_lt h]

/-! # Claim theorems -/

/-- C1, counterexample: for opcode `0x0F` with an empty payload, the frame
`_send_command` actually builds differs from the CRC32-trailed layout the
claim asserts (the mock's `make_packet` layout); moreover the Device's
decoder `process_packet` rejects the host's frame and accepts the CRC32
one, so the trailer scheme is not the one the Device verifies. -/
theorem C1_counterexample :
    send_command_packet 0x0F [] ≠ mock_make_packet 0x0F []
    ∧ process_packet_ok (send_command_packet 0x0F []) = false
    ∧ process_packet_ok (mock_make_packet 0x0F []) = true := by decide

/-- C1, amended: every request `_send_command` sends is
`[MARKER 0xAA][OPCODE][LEN][PAYLOAD]` followed by a single legacy
checksum byte — the two's complement of the payload byte sum modulo 256,
computed over PAYLOAD only — and never coincides with the 4-byte
little-endian CRC32-over-`OPCODE‖LEN‖PAYLOAD` framing that the Device's
decoder verifies on incoming request frames. -/
theorem C1_host_sends_legacy_checksum_frame (cmd : Nat) (payload : List Nat)
    (hlen : payload.length ≤ 255) :
    send_command_packet cmd payload
      = [HEADER, cmd, payload.length] ++ payload ++ [hostChecksum payload]
    ∧ hostChecksum payload < 256
    ∧ (payload.sum + hostChecksum payload) % 256 = 0
    ∧ send_command_packet cmd payload ≠ mock_make_packet cmd payload := by
  refine ⟨rfl, ?_, ?_, ?_⟩
  · unfold hostChecksum; omega
  · unfold hostChecksum; omega
  · intro h
    have hlen' := congrArg List.length h
    simp [send_command_packet, mock_make_packet, le32] at hlen'

/-- C1, witness for the amended theorem at opcode `0x10`, payload `[1, 2]`. -/
theorem C1_witness :
    send_command_packet 0x10 [1, 2]
      = [HEADER, 0x10, ([1, 2] : List Nat).length] ++ [1, 2]
          ++ [hostChecksum [1, 2]]
    ∧ hostChecksum [1, 2] < 256
    ∧ (([1, 2] : List Nat).sum + hostChecksum [1, 2]) % 256 = 0
    ∧ send_command_packet 0x10 [1, 2] ≠ mock_make_packet 0x10 [1, 2] :=
  C1_host_sends_legacy_checksum_frame 0x10 [1, 2] (by decide)

/-- C3, counterexample: with an upload session already active (buffer
`[1, 2, 3]`, name `"a"`, CRC state `0x12345678`), `_cmd_upload_start`
returns OK — not BUSY — and discards the active session's accumulated
bytes, rebinding the session to the new name. -/
theorem C3_counterexample :
    cmd_upload_start ⟨[1, 2, 3], [97], true, 0x12345678⟩ [98]
      = (⟨[], [98], true, 0⟩, .ok)
    ∧ (cmd_upload_start ⟨[1, 2, 3], [97], true, 0x12345678⟩ [98]).2
        ≠ .busy := by decide

/-- C3, amended: `_cmd_upload_start` never returns BUSY — even when a
session is already active it returns OK and silently resets: it rebinds
the session to the name decoded from the payload, with an empty
accumulation buffer, running CRC reset to zlib's initial state 0, and the
session marked active, discarding the previous session's state. -/
theorem C3_start_never_busy (st : UploadState) (payload : List Nat)
    (hactive : st.active = true) :
    (cmd_upload_start st payload).2 = .ok
    ∧ (cmd_upload_start st payload).2 ≠ .busy
    ∧ (cmd_upload_start st payload).1
        = ⟨[], uploadStartName payload, true, 0⟩ := by
  refine ⟨rfl, ?_, rfl⟩
  simp [cmd_upload_start]

/-- C3, witness for the amended theorem: an active session with buffered
bytes, restarted with payload `[0, 65, 0]` (name `"A"` after NUL strip). -/
theorem C3_witness :
    (cmd_upload_start ⟨[5], [], true, 7⟩ [0, 65, 0]).2 = .ok
    ∧ (cmd_upload_start ⟨[5], [], true, 7⟩ [0, 65, 0]).2 ≠ .busy
    ∧ (cmd_upload_start ⟨[5], [], true, 7⟩ [0, 65, 0]).1
        = ⟨[], uploadStartName [0, 65, 0], true, 0⟩ :=
  C3_start_never_busy ⟨[5], [], true, 7⟩ [0, 65, 0] rfl

/-- C4, counterexample: with an active session whose running CRC state is
5, `_cmd_upload_end` is given an expected CRC of 6 — a mismatch — yet
returns OK rather than a non-OK status (it does clear the session). -/
theorem C4_counterexample :
    (cmd_upload_end ⟨[7], [97], true, 5⟩ (le32 6)).2 = .ok
    ∧ decodeLE32 (le32 6) ≠ 5 &&& 0xFFFFFFFF
    ∧ (cmd_upload_end ⟨[7], [97], true, 5⟩ (le32 6)).1.active = false := by
  decide

/-- C4, amended: on an active session `_cmd_upload_end` always returns OK
— even when the finalized CRC differs from the caller-supplied
`expected_crc32`, the mismatch is only logged (the ERROR return is
commented out) — and in every case it clears the session
(`active = false`), so a subsequent Start succeeds immediately. -/
theorem C4_end_clears_but_returns_ok (st : UploadState)
    (payload p2 : List Nat) (hactive : st.active = true) :
    (cmd_upload_end st payload).2 = .ok
    ∧ (cmd_upload_end st payload).1.active = false
    ∧ (cmd_upload_start (cmd_upload_end st payload).1 p2).2 = .ok := by
  simp [cmd_upload_end, cmd_upload_start, hactive]

/-- C4, witness for the amended theorem at a concrete active session. -/
theorem C4_witness :
    (cmd_upload_end ⟨[7], [97], true, 5⟩ (le32 6)).2 = .ok
    ∧ (cmd_upload_end ⟨[7], [97], true, 5⟩ (le32 6)).1.active = false
    ∧ (cmd_upload_start (cmd_upload_end ⟨[7], [97], true, 5⟩ (le32 6)).1
        []).2 = .ok :=
  C4_end_clears_but_returns_ok ⟨[7], [97], true, 5⟩ (le32 6) [] rfl

/-- C5, counterexample: a complete, well-formed 7-byte frame preceded by a
single junk byte is discarded wholesale by the mock server's receive loop
(`buffer.clear()`, lines 496-497) — no packet is extracted and nothing is
kept — although the same frame alone is extracted intact, so discarding
exactly one byte and rescanning would have recovered it. -/
theorem C5_counterexample :
    serverStep (0x00 :: [0xAA, 0x0F, 0, 1, 2, 3, 4]) = ([], [])
    ∧ serverStep [0xAA, 0x0F, 0, 1, 2, 3, 4]
        = ([[0xAA, 0x0F, 0, 1, 2, 3, 4]], []) := by decide

/-- C5, amended: neither decoder resynchronizes byte-by-byte. When the
receive buffer does not begin with the marker `0xAA`, the mock server
clears the entire buffer — discarding every buffered byte, not exactly
one — and the host's `_send_command` raises (returns the error
"Invalid response header") and abandons the read instead of scanning for
the next marker. -/
theorem C5_marker_mismatch_discards_everything (buffer : List Nat)
    (hne : buffer ≠ []) (hhead : buffer.head? ≠ some HEADER) :
    serverStep buffer = ([], [])
    ∧ ∀ stream : List Nat, 4 ≤ stream.length →
        stream.head? ≠ some HEADER →
        host_read_response stream = .error "Invalid response header" := by
  constructor
  · match buffer, hne with
    | x :: xs, _ =>
      have hx : x ≠ HEADER := by simpa using hhead
      have hcond : ¬ (3 ≤ (x :: xs).length ∧ (x :: xs).head? = some HEADER) := by
        intro hc
        exact hhead hc.2
      have hext : extractPackets (x :: xs) = ([], x :: xs) := by
        unfold extractPackets
        simp only [List.length_cons]
        rw [extractGo, if_neg hcond]
      unfold serverStep
      rw [hext]
      simp [hx]
  · intro stream hlen hh
    unfold host_read_response
    rw [if_neg (by omega), if_pos hh]

/-- C5, witness for the amended theorem: buffer `[1, 0xAA]` (junk byte
followed by a marker) is cleared whole; a response stream starting with
`0` is rejected by the host. -/
theorem C5_witness :
    serverStep [1, 0xAA] = ([], [])
    ∧ ∀ stream : List Nat, 4 ≤ stream.length →
        stream.head? ≠ some HEADER →
        host_read_response stream = .error "Invalid response header" :=
  C5_marker_mismatch_discards_everything [1, 0xAA] (by decide) (by decide)

/-- C10: with an 8-byte device identity, `_cmd_ping_id` returns OK on any
payload whose first 8 bytes equal the identity — in particular on
`identity ++ extra`, ignoring trailing bytes — and returns ERROR on every
payload shorter than 8 bytes. -/
theorem C10_ping_id (deviceId : List Nat) (hid : deviceId.length = 8) :
    (∀ payload : List Nat, payload.take 8 = deviceId →
        cmd_ping_id deviceId payload = .ok)
    ∧ (∀ payload : List Nat, payload.length < 8 →
        cmd_ping_id deviceId payload = .error) := by
  constructor
  · intro payload hp
    have h8 : 8 ≤ payload.length := by
      have hl := congrArg List.length hp
      simp only [List.length_take, hid] at hl
      omega
    simp [cmd_ping_id, h8, hp]
  · intro payload hp
    have hc : ¬ (8 ≤ payload.length ∧ payload.take 8 = deviceId) := by
      rintro ⟨h8, _⟩
      omega
    simp [cmd_ping_id, hc]

/-- C10, witness: identity `[0,...,7]`; a 10-byte payload extending the
identity is accepted, a 2-byte payload is rejected. -/
theorem C10_witness :
    cmd_ping_id [0, 1, 2, 3, 4, 5, 6, 7]
        ([0, 1, 2, 3, 4, 5, 6, 7] ++ [9, 9]) = .ok
    ∧ cmd_ping_id [0, 1, 2, 3, 4, 5, 6, 7] [1, 2] = .error :=
  ⟨(C10_ping_id [0, 1, 2, 3, 4, 5, 6, 7] rfl).1 _ (by decide),
   (C10_ping_id [0, 1, 2, 3, 4, 5, 6, 7] rfl).2 _ (by decide)⟩

/-- Each encoded sub-record contributes at least one byte, so the encoded
batch is at least as long as the record list. -/
theorem encodeRecords_length_ge (rs : List (Nat × List Nat)) :
    rs.length ≤ (encodeRecords rs).length := by
  induction rs with
  | nil => simp [encodeRecords]
  | cons r rs ih =>
      have : encodeRecords (r :: rs) = r.1 :: r.2.length :: (r.2 ++ encodeRecords rs) := by
        simp [encodeRecords]
      rw [this]
      simp only [List.length_cons, List.length_append]
      omega

/-- C2: on a batch payload consisting of well-formed sub-records
`[SUBOPCODE][SUBLEN][SUBPAYLOAD]` followed by a sub-record whose declared
length exceeds the remaining bytes, the dispatcher parses exactly the
well-formed prefix left to right, executes it by invoking the handler
table on each sub-record in order, and returns one aggregate OK/ERROR
status for the whole batch (it is a total function — nothing is raised). -/
theorem C2_batch_dispatch {σ : Type}
    (handlers : Nat → σ → List Nat → σ × RespStatus) (st : σ)
    (rs : List (Nat × List Nat)) (badOp badLen : Nat) (junk : List Nat)
    (hbad : junk.length < badLen) :
    parseSubRecords (encodeRecords rs ++ badOp :: badLen :: junk) = rs
    ∧ batchExec handlers st (encodeRecords rs ++ badOp :: badLen :: junk)
        = ((batchRun handlers st rs).1,
           if (batchRun handlers st rs).2 then .ok else .error)
    ∧ ((batchExec handlers st
          (encodeRecords rs ++ badOp :: badLen :: junk)).2 = .ok
       ∨ (batchExec handlers st
          (encodeRecords rs ++ badOp :: badLen :: junk)).2 = .error) := by
  have hfuel : rs.length + 1
      ≤ (encodeRecords rs ++ badOp :: badLen :: junk).length := by
    have := encodeRecords_length_ge rs
    simp only [List.length_append, List.length_cons]
    omega
  have hparse : parseSubRecords (encodeRecords rs ++ badOp :: badLen :: junk)
      = rs := by
    unfold parseSubRecords
    exact parseGo_encode rs _ badOp badLen junk hfuel hbad
  have hexec : batchExec handlers st (encodeRecords rs ++ badOp :: badLen :: junk)
      = ((batchRun handlers st rs).1,
         if (batchRun handlers st rs).2 then .ok else .error) := by
    unfold batchExec
    rw [hparse]
  refine ⟨hparse, hexec, ?_⟩
  rw [hexec]
  by_cases h : (batchRun handlers st rs).2
  · left; simp [h]
  · right; simp [h]

/-- C2, witness: two well-formed sub-records followed by a sub-record
declaring 5 payload bytes with only 1 remaining; the parse truncates to
the two well-formed records. -/
theorem C2_witness :
    parseSubRecords (encodeRecords [(0xA5, [1, 2]), (0x10, [])]
        ++ 0x11 :: 5 :: [9]) = [(0xA5, [1, 2]), (0x10, [])] :=
  (C2_batch_dispatch (fun _ s _ => (s, .ok)) (0 : Nat)
    [(0xA5, [1, 2]), (0x10, [])] 0x11 5 [9] (by decide)).1

/-- C6: for every partition of a byte buffer into chunks, Start followed
by one Chunk per piece in order leaves the accumulation buffer equal to
the concatenation of the chunks and the running CRC state equal to the
one-call `calculate_crc32` of the whole concatenation. -/
theorem C6_incremental_crc_matches_one_call (st0 : UploadState)
    (namePayload : List Nat) (chunks : List (List Nat))
    (hbytes : ∀ c ∈ chunks, ∀ b ∈ c, b < 256) :
    (chunks.foldl (fun s c => (cmd_upload_chunk s c).1)
        (cmd_upload_start st0 namePayload).1).buffer = chunks.flatten
    ∧ (chunks.foldl (fun s c => (cmd_upload_chunk s c).1)
        (cmd_upload_start st0 namePayload).1).crc
        = calculate_crc32 chunks.flatten := by
  have hstart : (cmd_upload_start st0 namePayload).1
      = ⟨[], uploadStartName namePayload, true, 0⟩ := rfl
  rw [hstart, upload_chunk_foldl chunks _ rfl]
  refine ⟨by simp, ?_⟩
  have hflat : ∀ b ∈ chunks.flatten, b < 256 := by
    intro b hb
    obtain ⟨c, hc, hbc⟩ := List.mem_flatten.mp hb
    exact hbytes c hc b hbc
  have hlt : zlibCrc32 chunks.flatten 0 < 2 ^ 32 :=
    zlibCrc32_lt _ 0 (by norm_num) hflat
  simp only [calculate_crc32, and_mask32_eq_self _ hlt]

/-- C6, witness: the three-way split `[[1, 2], [], [3]]` of `[1, 2, 3]`. -/
theorem C6_witness :
    ([[1, 2], [], [3]].foldl (fun s c => (cmd_upload_chunk s c).1)
        (cmd_upload_start ⟨[], [], false, 0⟩ [116]).1).buffer
      = [[1, 2], [], [3]].flatten
    ∧ ([[1, 2], [], [3]].foldl (fun s c => (cmd_upload_chunk s c).1)
        (cmd_upload_start ⟨[], [], false, 0⟩ [116]).1).crc
      = calculate_crc32 [[1, 2], [], [3]].flatten :=
  C6_incremental_crc_matches_one_call ⟨[], [], false, 0⟩ [116]
    [[1, 2], [], [3]] (by decide)

/-- C7: `_cmd_buffer_write` rejects a non-finite sample with ERROR leaving
the buffer unchanged; a finite sample is appended with FIFO eviction of
the oldest entry once 60 samples are exceeded; and writing 61 finite
samples into an empty buffer leaves exactly the last 60 of them, in
insertion order. -/
theorem C7_buffer_write_fifo (buf payload vs : List Nat)
    (h4 : 4 ≤ payload.length) (hb : buf.length ≤ 60) (hvs : vs.length = 61)
    (hfin : ∀ v ∈ vs, isFiniteBits v = true)
    (hbound : ∀ v ∈ vs, v < 2 ^ 32) :
    (isFiniteBits (decodeLE32 payload) = false →
        cmd_buffer_write buf payload = (buf, .error))
    ∧ (∀ v : Nat, isFiniteBits v = true → v < 2 ^ 32 →
        cmd_buffer_write buf (le32 v)
          = ((buf ++ [v]).drop (buf.length + 1 - 60), .ok))
    ∧ vs.foldl (fun acc v => (cmd_buffer_write acc (le32 v)).1) []
        = vs.drop 1 := by
  refine ⟨?_, ?_, ?_⟩
  · intro hnf
    simp [cmd_buffer_write, Nat.not_lt.mpr h4, hnf]
  · intro v hfv hvv
    exact cmd_buffer_write_finite buf v hb hfv hvv
  · have := buffer_write_foldl vs [] (by simp) hfin hbound
    simpa [hvs] using this

/-- C7, witness: an empty buffer, the encoding of the finite bit pattern
`0x3F800000` (1.0f), and the 61 distinct finite bit patterns `0..60`. -/
theorem C7_witness :
    (isFiniteBits (decodeLE32 (le32 0x3F800000)) = false →
        cmd_buffer_write [] (le32 0x3F800000) = ([], .error))
    ∧ (∀ v : Nat, isFiniteBits v = true → v < 2 ^ 32 →
        cmd_buffer_write [] (le32 v)
          = (([] ++ [v]).drop (([] : List Nat).length + 1 - 60), .ok))
    ∧ (List.range 61).foldl (fun acc v => (cmd_buffer_write acc (le32 v)).1) []
        = (List.range 61).drop 1 :=
  C7_buffer_write_fifo [] (le32 0x3F800000) (List.range 61)
    (by decide) (by decide) (by decide) (by decide) (by decide)

/-- C9: on a non-empty buffer, `_cmd_baseline_capture` stores the buffer
mean and returns OK, and an immediately following `_cmd_get_delta` (no
intervening writes) recomputes the same mean and returns exactly 0. -/
theorem C9_capture_then_delta_zero (buf : List ℚ) (b0 : Option ℚ)
    (h : buf ≠ []) :
    cmd_baseline_capture buf b0 = (some (buffer_mean buf), .ok)
    ∧ cmd_get_delta buf (cmd_baseline_capture buf b0).1 = (.ok, some 0) := by
  have h1 : cmd_baseline_capture buf b0 = (some (buffer_mean buf), .ok) := by
    simp [cmd_baseline_capture, h]
  refine ⟨h1, ?_⟩
  rw [h1]
  simp [cmd_get_delta, h]

/-- C9, witness at buffer `[1, 2]` with no prior baseline. -/
theorem C9_witness :
    cmd_baseline_capture [1, 2] none = (some (buffer_mean [1, 2]), .ok)
    ∧ cmd_get_delta [1, 2] (cmd_baseline_capture [1, 2] none).1
        = (.ok, some 0) :=
  C9_capture_then_delta_zero [1, 2] none (by simp)

/-- A sum of squared deviations is non-negative. -/
theorem sqDev_nonneg (n : Nat) (l : List ℝ) : 0 ≤ sqDev n l := by
  apply List.sum_nonneg
  intro x hx
  obtain ⟨y, _, rfl⟩ := List.mem_map.mp hx
  positivity

/-- C8: on a non-empty buffer and non-empty reference,
`_normalized_cross_corr` works over the first `n = min(len(a), len(b))`
elements in stored order; it returns exactly 1 whenever either sequence
has zero variance over those `n` samples, and otherwise returns the
Pearson coefficient mapped by `(r + 1) / 2` and clamped to `[0, 1]`; in
all cases the score lies in `[0, 1]`. -/
theorem C8_correlate_score (a b : List ℝ) (ha : a ≠ []) (hb : b ≠ []) :
    (sqDev (min a.length b.length) a = 0 ∨ sqDev (min a.length b.length) b = 0 →
        normalized_cross_corr a b = 1)
    ∧ (sqDev (min a.length b.length) a ≠ 0 → sqDev (min a.length b.length) b ≠ 0 →
        normalized_cross_corr a b
          = max 0 (min 1 ((pearsonR (min a.length b.length) a b + 1) / 2)))
    ∧ 0 ≤ normalized_cross_corr a b ∧ normalized_cross_corr a b ≤ 1 := by
  have hn : ¬ (min a.length b.length = 0) := by
    have h1 : 0 < a.length := List.length_pos.mpr ha
    have h2 : 0 < b.length := List.length_pos.mpr hb
    omega
  refine ⟨?_, ?_, ?_⟩
  · intro hz
    have hprod : sqDev (min a.length b.length) a
        * sqDev (min a.length b.length) b = 0 := by
      rcases hz with hz | hz <;> rw [hz] <;> ring
    unfold normalized_cross_corr
    rw [if_neg hn, if_pos (by rw [hprod, Real.sqrt_zero])]
  · intro hza hzb
    have hpa : 0 < sqDev (min a.length b.length) a :=
      lt_of_le_of_ne (sqDev_nonneg _ _) (Ne.symm hza)
    have hpb : 0 < sqDev (min a.length b.length) b :=
      lt_of_le_of_ne (sqDev_nonneg _ _) (Ne.symm hzb)
    have hs : Real.sqrt (sqDev (min a.length b.length) a
        * sqDev (min a.length b.length) b) ≠ 0 :=
      ne_of_gt (Real.sqrt_pos.mpr (mul_pos hpa hpb))
    unfold normalized_cross_corr
    rw [if_neg hn, if_neg hs]
  · unfold normalized_cross_corr
    rw [if_neg hn]
    by_cases hs : Real.sqrt (sqDev (min a.length b.length) a
        * sqDev (min a.length b.length) b) = 0
    · rw [if_pos hs]
      norm_num
    · rw [if_neg hs]
      exact ⟨le_max_left _ _, max_le (by norm_num) (min_le_left _ _)⟩

/-- C8, witness: buffer `[1, 1]` has zero variance against reference
`[2, 3]`, so the score is exactly 1. -/
theorem C8_witness : normalized_cross_corr [1, 1] [2, 3] = 1 :=
  (C8_correlate_score [1, 1] [2, 3] (by simp) (by simp)).1
    (Or.inl (by norm_num [sqDev, sampleMean]))
